import Mathlib

/-!
Verification development for the td socket primitive
(source: src/tdutils/td/utils/port/SocketFd.cpp).

The source contains two backends selected by preprocessor flags:
a readiness-based backend (TD_PORT_POSIX) doing plain read/write syscalls,
and a completion-based backend (TD_PORT_WINDOWS) built on an IOCP-style
dispatcher, a reference count, staging chain buffers and a pending-error
queue.  Both are shallowly embedded below.  OS interactions (syscall
results, completion deliveries) are supplied as explicit oracle inputs.
-/

deriving instance DecidableEq for Except

namespace TdSocket

/-- An OS socket error carried by a failing `Status`/`Result` in the source.
Only its identity matters; the payload is an opaque code. -/
structure SockError where
  code : Nat
deriving DecidableEq, Repr

/-! ## Readiness backend (the TD_PORT_POSIX `SocketFdImpl`) -/

/-- POSIX errno values named by the source.  The constructors `ENXIOerr` and
`EIOerr` stand for the source's `ENXIO` and `EIO`.  Codes not named by the
source are represented by `other`. -/
inductive Errno
  | EAGAIN
  | EWOULDBLOCK
  | EBADF
  | ENXIOerr
  | EFAULT
  | EINVAL
  | ECONNRESET
  | EDQUOT
  | EFBIG
  | EIOerr
  | ENETDOWN
  | ENETUNREACH
  | ENOSPC
  | EPIPE
  | EISDIR
  | ENOTCONN
  | ENOBUFS
  | ENOMEM
  | ETIMEDOUT
  | EINPROGRESS
  | other (code : Nat)
deriving DecidableEq, Repr

/-- State of the readiness-based `SocketFdImpl`: the four `PollFlags` bits it
mutates, plus the OS-level latched socket error (`SO_ERROR`), which the
`getsockopt` call in `get_socket_pending_error` reads and thereby clears. -/
structure RState where
  flagRead : Bool
  flagWrite : Bool
  flagClose : Bool
  flagError : Bool
  osSoError : Option Errno
deriving DecidableEq, Repr

/-- Result of a readiness-backend `read`/`write` call: success with a byte
count, a recoverable `Status` error, or `fatal` for the `LOG(FATAL)` paths
that terminate the process. -/
inductive IoResult
  | ok (n : Nat)
  | err (e : Errno)
  | fatal
deriving DecidableEq, Repr

/-- The two platform would-block codes accepted by the source
(`EAGAIN` and, where distinct, `EWOULDBLOCK`). -/
def is_would_block (e : Errno) : Bool :=
  e = Errno.EAGAIN || e = Errno.EWOULDBLOCK

/-- The `LOG(FATAL)` case list of the readiness `write` switch
(`EBADF`, `ENXIO`, `EFAULT`, `EINVAL`). -/
def posixWriteFatalErrnos : List Errno :=
  [Errno.EBADF, Errno.ENXIOerr, Errno.EFAULT, Errno.EINVAL]

/-- The `LOG(FATAL)` case list of the readiness `read` switch
(`EISDIR`, `EBADF`, `ENXIO`, `EFAULT`, `EINVAL`). -/
def posixReadFatalErrnos : List Errno :=
  [Errno.EISDIR, Errno.EBADF, Errno.ENXIOerr, Errno.EFAULT, Errno.EINVAL]

/-- Readiness-backend `write` (source lines 347-387).  The OS `::write`
syscall outcome is the oracle `os` (`.ok n` = `n` bytes accepted,
`.error e` = failed with errno `e`).  Mirrors the source's classification:
would-block clears the Write flag and returns 0; the fatal whitelist
terminates; the default and the listed connection errors clear Write,
set Close and return the error. -/
def posixWrite (s : RState) (os : Except Errno Nat) : IoResult × RState :=
  match os with
  | Except.ok n => (IoResult.ok n, s)
  | Except.error e =>
    if is_would_block e then
      (IoResult.ok 0, { s with flagWrite := false })
    else if e ∈ posixWriteFatalErrnos then
      (IoResult.fatal, s)
    else
      (IoResult.err e, { s with flagWrite := false, flagClose := true })

/-- Model of `detail::get_socket_pending_error` (source lines 449-461): reads the
OS-level `SO_ERROR` state, which clears it, and returns it as a status
(`none` = OK).  The model assumes the `getsockopt` call itself succeeds. -/
def get_socket_pending_error (os : Option Errno) : Option Errno × Option Errno :=
  match os with
  | none => (none, none)
  | some e => (some e, none)

/-- Readiness-backend `get_pending_error` (source lines 435-442).  Returns
(status, new state, number of OS queries made).  Note the source's
`TRY_STATUS` returns a non-OK status before `clear_flags(Error)` runs, so
on the error path the latched flag stays set. -/
def posixGetPendingError (s : RState) : Option Errno × RState × Nat :=
  if s.flagError then
    match get_socket_pending_error s.osSoError with
    | (some e, os1) => (some e, { s with osSoError := os1 }, 1)
    | (none, os1) => (none, { s with osSoError := os1, flagError := false }, 1)
  else
    (none, s, 0)

/-- Readiness-backend `read` (source lines 388-434).  `bufSize` is the
caller's buffer size (the source `CHECK`s it is positive), `os` is the OS
`::read` outcome.  Returns (result, new state, whether the OS read syscall
was attempted). -/
def posixRead (s : RState) (bufSize : Nat) (os : Except Errno Nat) :
    IoResult × RState × Bool :=
  match (if s.flagError then posixGetPendingError s else (none, s, 0)) with
  | (some e, s1, _) => (IoResult.err e, s1, false)
  | (none, s1, _) =>
    if bufSize = 0 then
      (IoResult.fatal, s1, false)
    else
      match os with
      | Except.ok n =>
        if n = 0 then
          (IoResult.ok 0, { s1 with flagRead := false, flagClose := true }, true)
        else
          (IoResult.ok n, s1, true)
      | Except.error e =>
        if is_would_block e then
          (IoResult.ok 0, { s1 with flagRead := false }, true)
        else if e ∈ posixReadFatalErrnos then
          (IoResult.fatal, s1, true)
        else
          (IoResult.err e, { s1 with flagRead := false, flagClose := true }, true)

/-- Outcomes of the OS calls `SocketFd::open` makes, supplied as an oracle:
the `::socket` call, `set_is_blocking_unsafe(false)`, the three
`setsockopt` calls (whose integer return values the source discards), and
the `::connect` call (`none` = succeeded, `some e` = failed with errno `e`). -/
structure OpenOracle where
  socketRes : Except Errno Nat
  setBlockingRes : Option Errno
  setReuseRes : Bool
  setKeepaliveRes : Bool
  setNodelayRes : Bool
  connectRes : Option Errno
deriving DecidableEq, Repr

/-- Model of `detail::init_socket_options` (source lines 465-480): fails iff putting
the socket in non-blocking mode fails.  The three `setsockopt` calls
(`SO_REUSEADDR`, `SO_KEEPALIVE`, `TCP_NODELAY`) are performed but their
return values are discarded by the source. -/
def init_socket_options (o : OpenOracle) : Option Errno :=
  match o.setBlockingRes with
  | some e => some e
  | none => none

/-- Fresh readiness-backend state as built by the POSIX `SocketFdImpl`
constructor: no flags set, no latched OS error. -/
def initRState : RState :=
  { flagRead := false, flagWrite := false, flagClose := false,
    flagError := false, osSoError := none }

/-- Model of `SocketFd::open` on the readiness backend (source lines 497-513):
create the socket, apply `init_socket_options`, then a synchronous
`::connect`; a connect failure other than `EINPROGRESS` fails the open. -/
def socketFdOpen (o : OpenOracle) : Except Errno RState :=
  match o.socketRes with
  | Except.error e => Except.error e
  | Except.ok _fd =>
    match init_socket_options o with
    | some e => Except.error e
    | none =>
      match o.connectRes with
      | some e =>
        if e = Errno.EINPROGRESS then Except.ok initRState else Except.error e
      | none => Except.ok initRState

/-! ## Completion backend (the TD_PORT_WINDOWS `SocketFdImpl`)

The completion backend is embedded as a state machine driven by events:
IOCP completion deliveries (whose `WSAOVERLAPPED` pointer identity is the
tag `Ovl`) and the owning handle's calls.  A completion result carrying
`size` transferred bytes is represented by a byte list of that length (for
read completions the list is the received data; for other completions only
its length is used).  OS submission calls made inside handlers
(`WSARecv`/`WSASend`) report back through the oracles `osR`/`osW`
(`none` = accepted, i.e. immediate success or `ERROR_IO_PENDING`;
`some e` = immediate failure with error `e`).

Two ghost fields track the environment: `owner_held` (the owning
`SocketFd` handle has not yet run its deleter, which calls `close()`) and
`outstanding` (completions posted to the dispatcher and not yet
delivered); a delivery event is only enabled while `outstanding` is
positive, and handle calls only while `owner_held`. -/

/-- Identity of the `WSAOVERLAPPED` pointer a completion was delivered
with: `read_overlapped_`, `write_overlapped_`, the null pointer used by
the synthetic write wake-up, or `close_overlapped_`. -/
inductive Ovl
  | readO
  | writeO
  | nullO
  | closeO
deriving DecidableEq, Repr

/-- Observable submissions/posts a handler performs: an OS read submission
(`WSARecv`), an OS write submission (`WSASend`), and the synthetic posts
`notify_iocp_write`, `notify_iocp_close`, `notify_iocp_connected`. -/
inductive CompAction
  | submitRead
  | submitWrite
  | postWakeup
  | postClose
  | postConnected
deriving DecidableEq, Repr

/-- State of the completion-backend `SocketFdImpl`.  Field names follow the
source members.  The chain buffers are embedded as byte lists:
`input_reader` holds committed-and-synced unread inbound bytes and
`input_writer_tail` bytes committed by `confirm_append` but not yet pulled
in by `sync_with_writer` (likewise for the outbound pair).  `deleted`
records that `delete this` ran; `owner_held`/`outstanding` are the ghost
environment fields described above. -/
structure CompState where
  refcnt : Int
  deleted : Bool
  close_flag : Bool
  is_connected : Bool
  is_read_active : Bool
  is_write_active : Bool
  is_write_waiting : Bool
  input_reader : List UInt8
  input_writer_tail : List UInt8
  output_reader : List UInt8
  output_writer_tail : List UInt8
  pending_errors : List SockError
  flagRead : Bool
  flagWrite : Bool
  flagClose : Bool
  flagError : Bool
  owner_held : Bool
  outstanding : Nat
deriving DecidableEq, Repr

/-- Model of `on_error` (source lines 234-241): push the error on the pending-error
queue under the lock and set the Error poll flag. -/
def on_error (e : SockError) (s : CompState) : CompState :=
  { s with pending_errors := s.pending_errors ++ [e], flagError := true }

/-- Model of `output_reader_.sync_with_writer()`: bytes appended by `write` become
visible to the reader side. -/
def sync_out (s : CompState) : CompState :=
  { s with output_reader := s.output_reader ++ s.output_writer_tail,
           output_writer_tail := [] }

/-- Effect of an accepted `WSARecv` submission in `loop_read`:
`inc_refcnt()` and `is_read_active_ = true` (the posted completion is
counted in the ghost `outstanding`). -/
def accept_read_submission (s : CompState) : CompState :=
  { s with refcnt := s.refcnt + 1, outstanding := s.outstanding + 1,
           is_read_active := true }

/-- Effect of an accepted `WSASend` submission in `loop_write`. -/
def accept_write_submission (s : CompState) : CompState :=
  { s with refcnt := s.refcnt + 1, outstanding := s.outstanding + 1,
           is_write_active := true }

/-- Model of `loop_read` (source lines 154-171).  `none` models the `CHECK` macros
aborting the process (`CHECK(is_connected_)`, `CHECK(!is_read_active_)`).
If the close flag is set nothing is submitted.  Otherwise a `WSARecv` is
issued; if accepted the refcount is incremented and the read marked
active, else the immediate error goes through `on_error`. -/
def loop_read (osR : Option SockError) (s : CompState) :
    Option (CompState × List CompAction) :=
  if !s.is_connected then none
  else if s.is_read_active then none
  else if s.close_flag then some (s, [])
  else
    match osR with
    | none => some (accept_read_submission s, [CompAction.submitRead])
    | some e => some (on_error e s, [])

/-- Model of `loop_write` (source lines 173-200).  After syncing the outbound
reader, an empty buffer parks the writer (`is_write_waiting_ = true`; the
source's double-check under the lock re-reads the same buffer and is
collapsed here); otherwise a `WSASend` of the prepared region is issued. -/
def loop_write (osW : Option SockError) (s : CompState) :
    Option (CompState × List CompAction) :=
  if !s.is_connected then none
  else if s.is_write_active then none
  else if (sync_out s).output_reader.isEmpty then
    some ({ sync_out s with is_write_waiting := true }, [])
  else
    match osW with
    | none => some (accept_write_submission (sync_out s), [CompAction.submitWrite])
    | some e => some (on_error e (sync_out s), [])

/-- Model of `on_connected` (source lines 243-251): transition `Connecting` to
`Connected`, then start the first read loop and the first write loop. -/
def on_connected (osR osW : Option SockError) (s : CompState) :
    Option (CompState × List CompAction) :=
  if s.is_connected then none
  else if s.is_read_active then
    match loop_read osR { s with is_connected := true, is_read_active := false } with
    | none => none
    | some (s2, a1) =>
      match loop_write osW s2 with
      | none => none
      | some (s3, a2) => some (s3, a1 ++ a2)
  else none

/-- Model of `on_read` (source lines 253-264): a 0-byte completion sets the Close
poll flag and stops; otherwise the received bytes are committed into the
inbound writer side, the Read flag is set, and another read is started. -/
def on_read (data : List UInt8) (osR : Option SockError) (s : CompState) :
    Option (CompState × List CompAction) :=
  if s.is_read_active then
    if data.isEmpty then
      some ({ s with is_read_active := false, flagClose := true }, [])
    else
      loop_read osR
        { s with is_read_active := false,
                 input_writer_tail := s.input_writer_tail ++ data,
                 flagRead := true }
  else none

/-- Model of `on_write` (source lines 266-278): a 0-size completion while a write
is active is ignored (the wake-up raced an active write); otherwise the
sent bytes are consumed from the outbound reader (`confirm_read`) and the
write loop restarted. -/
def on_write (size : Nat) (osW : Option SockError) (s : CompState) :
    Option (CompState × List CompAction) :=
  if size = 0 then
    if s.is_write_active then
      some (s, [])
    else
      loop_write osW { s with output_reader := s.output_reader.drop 0 }
  else if s.is_write_active then
    loop_write osW
      { s with is_write_active := false, output_reader := s.output_reader.drop size }
  else none

/-- Model of `on_close` (source lines 280-284): set the close flag and release the
native descriptor. -/
def on_close (s : CompState) : CompState :=
  { s with close_flag := true }

/-- The decrement every completion delivery performs first (`dec_refcnt`
at the top of `on_iocp`); the ghost outstanding count drops with it.
The deletion it may trigger is handled in `on_iocp`. -/
def dec_refcnt (s : CompState) : CompState :=
  { s with outstanding := s.outstanding - 1, refcnt := s.refcnt - 1 }

/-- Model of `on_iocp` (source lines 202-232): every delivery first decrements the
reference count (deleting the object if it reaches zero) and bails out if
the close flag is set; an error result goes to `on_error`; otherwise the
completion is routed by overlapped-pointer identity, with the read
overlapped interpreted as the connect completion before `is_connected_`.
The `outstanding` guard restricts deliveries to completions actually
posted. -/
def on_iocp (r : Except SockError (List UInt8)) (o : Ovl)
    (osR osW : Option SockError) (s : CompState) :
    Option (CompState × List CompAction) :=
  if s.outstanding = 0 then none
  else if (dec_refcnt s).refcnt = 0 then
    some ({ dec_refcnt s with deleted := true }, [])
  else if (dec_refcnt s).close_flag then some (dec_refcnt s, [])
  else
    match r with
    | Except.error e => some (on_error e (dec_refcnt s), [])
    | Except.ok data =>
      if !(dec_refcnt s).is_connected && o = Ovl.readO then
        on_connected osR osW (dec_refcnt s)
      else
        match o with
        | Ovl.writeO => on_write data.length osW (dec_refcnt s)
        | Ovl.nullO => if data.isEmpty then on_write 0 osW (dec_refcnt s) else none
        | Ovl.readO => on_read data osR (dec_refcnt s)
        | Ovl.closeO => some (on_close (dec_refcnt s), [])

/-- Completion-backend `write` (source lines 87-95): append the bytes to
the outbound writer side; if the write loop was parked, clear the waiting
flag under the lock and post the synthetic wake-up (`notify_iocp_write`,
which increments the refcount).  Always returns the full byte count. -/
def comp_write (data : List UInt8) (s : CompState) :
    Except SockError Nat × CompState × List CompAction :=
  if s.is_write_waiting then
    (Except.ok data.length,
     { s with output_writer_tail := s.output_writer_tail ++ data,
              is_write_waiting := false, refcnt := s.refcnt + 1,
              outstanding := s.outstanding + 1 },
     [CompAction.postWakeup])
  else
    (Except.ok data.length,
     { s with output_writer_tail := s.output_writer_tail ++ data }, [])

/-- Completion-backend `get_pending_error` (source lines 109-121): under
the lock, pop one error off the queue if present; clear the Error poll
flag exactly when the returned status is OK (i.e. the queue was empty). -/
def comp_get_pending_error (s : CompState) : Option SockError × CompState :=
  match s.pending_errors with
  | [] => (none, { s with flagError := false })
  | e :: rest => (some e, { s with pending_errors := rest })

/-- Model of `input_reader_.sync_with_writer()`: committed inbound bytes become
visible to the reader side. -/
def sync_in (s : CompState) : CompState :=
  { s with input_reader := s.input_reader ++ s.input_writer_tail,
           input_writer_tail := [] }

/-- The copy phase of the completion-backend `read`: sync the inbound
reader with the writer (`input_reader_.sync_with_writer()`), copy out
`min(requested, available)` bytes (`input_reader_.advance`), and clear the
Read poll flag iff the copied count is 0. -/
def comp_read_copy (n : Nat) (s : CompState) :
    Except SockError (List UInt8) × CompState :=
  if min n (sync_in s).input_reader.length = 0 then
    (Except.ok ((sync_in s).input_reader.take (min n (sync_in s).input_reader.length)),
     { sync_in s with
       input_reader :=
         (sync_in s).input_reader.drop (min n (sync_in s).input_reader.length),
       flagRead := false })
  else
    (Except.ok ((sync_in s).input_reader.take (min n (sync_in s).input_reader.length)),
     { sync_in s with
       input_reader :=
         (sync_in s).input_reader.drop (min n (sync_in s).input_reader.length) })

/-- Completion-backend `read` (source lines 97-107): if the Error poll
flag is set, drain one pending error first (`TRY_STATUS`), returning it if
non-OK; otherwise proceed to the copy phase. -/
def comp_read (n : Nat) (s : CompState) :
    Except SockError (List UInt8) × CompState :=
  if s.flagError then
    match comp_get_pending_error s with
    | (some e, s1) => (Except.error e, s1)
    | (none, s1) => comp_read_copy n s1
  else comp_read_copy n s

/-- Events driving the completion backend: a completion delivery (with its
result, overlapped identity, and the OS responses for any submissions the
handler performs), and the owning handle's calls. -/
inductive CompEvent
  | iocp (r : Except SockError (List UInt8)) (o : Ovl) (osR osW : Option SockError)
  | callWrite (data : List UInt8)
  | callRead (n : Nat)
  | callGetPendingError
  | callClose
deriving DecidableEq, Repr

/-- One step of the completion backend.  A deleted object accepts no
events.  `callClose` is `close()` via the handle's deleter: it posts the
synthetic close completion without incrementing the refcount and gives up
the owner's reference. -/
def comp_step (s : CompState) (e : CompEvent) :
    Option (CompState × List CompAction) :=
  if s.deleted then none
  else
    match e with
    | CompEvent.iocp r o osR osW => on_iocp r o osR osW s
    | CompEvent.callWrite data =>
      if s.owner_held then some (comp_write data s).2 else none
    | CompEvent.callRead n =>
      if s.owner_held then some ((comp_read n s).2, []) else none
    | CompEvent.callGetPendingError =>
      if s.owner_held then some ((comp_get_pending_error s).2, []) else none
    | CompEvent.callClose =>
      if s.owner_held then
        some ({ s with owner_held := false, outstanding := s.outstanding + 1 },
              [CompAction.postClose])
      else none

/-- Run a list of events, collecting all emitted actions. -/
def comp_steps (s : CompState) : List CompEvent → Option (CompState × List CompAction)
  | [] => some (s, [])
  | e :: es =>
    match comp_step s e with
    | none => none
    | some (s1, a1) =>
      match comp_steps s1 es with
      | none => none
      | some (s2, a2) => some (s2, a1 ++ a2)

/-- State built by the adopting constructor (source lines 38-44): Write
poll flag set, subscribed, `is_read_active_ = true`, and the synthetic
connected completion posted via `notify_iocp_connected` (which increments
the refcount from its initial 1 to 2). -/
def adoptInit : CompState :=
  { refcnt := 2, deleted := false, close_flag := false,
    is_connected := false, is_read_active := true, is_write_active := false,
    is_write_waiting := false, input_reader := [], input_writer_tail := [],
    output_reader := [], output_writer_tail := [], pending_errors := [],
    flagRead := false, flagWrite := true, flagClose := false, flagError := false,
    owner_held := true, outstanding := 1 }

/-- Outcome of the `ConnectEx` call in the connecting constructor:
operation pending (completion will be delivered), immediate synchronous
success (`TRUE`), or immediate failure. -/
inductive ConnectOutcome
  | pending
  | immediateTrue
  | fail (e : SockError)
deriving DecidableEq, Repr

/-- Common base of the connecting constructor before the `ConnectEx`
outcome is applied. -/
def connectBase : CompState :=
  { adoptInit with refcnt := 1, is_read_active := false, outstanding := 0 }

/-- State built by the connecting constructor (source lines 46-70).
A `WSAIoctl` failure reports through `on_error` and submits nothing.
Otherwise the refcount is incremented and `ConnectEx` issued; on `TRUE` or
immediate failure the increment is undone (`dec_refcnt`), on pending the
posted connect completion stays outstanding. -/
def connectInit (ioctl : Option SockError) (c : ConnectOutcome) : CompState :=
  match ioctl with
  | some e => on_error e connectBase
  | none =>
    match c with
    | ConnectOutcome.pending =>
      { connectBase with refcnt := 2, is_read_active := true, outstanding := 1 }
    | ConnectOutcome.immediateTrue => connectBase
    | ConnectOutcome.fail e => on_error e connectBase

/-- The owner's contribution to the reference count: 1 while the owning
handle has not yet posted the close completion. -/
def ownerBit (s : CompState) : Int :=
  if s.owner_held then 1 else 0

/-- Machine invariant: while alive, the reference count equals the owner's
reference plus one reference per outstanding posted completion, and is
positive; deletion happens exactly at count zero with nothing outstanding;
and once the Close poll flag is set (only `on_read` of size 0 sets it) the
socket is connected with no read outstanding. -/
def CompInv (s : CompState) : Prop :=
  (s.deleted = false → s.refcnt = ownerBit s + (s.outstanding : Int) ∧ 1 ≤ s.refcnt) ∧
  (s.deleted = true → s.refcnt = 0 ∧ s.outstanding = 0 ∧ s.owner_held = false) ∧
  (s.flagClose = true → s.is_connected = true ∧ s.is_read_active = false)

instance (s : CompState) : Decidable (CompInv s) := by
  unfold CompInv
  infer_instance

/-! ## Concrete states and oracles used by counterexamples and witnesses -/

/-- A readiness-backend state with the Error poll flag latched and a
connection-reset error pending at OS level. -/
def errLatchedRState : RState :=
  { flagRead := false, flagWrite := false, flagClose := false, flagError := true,
    osSoError := some Errno.ECONNRESET }

/-- An `open` oracle where everything succeeds except the `SO_REUSEADDR`
`setsockopt` call, and the connect reports in-progress. -/
def reuseFailOracle : OpenOracle :=
  { socketRes := Except.ok 3, setBlockingRes := none, setReuseRes := false,
    setKeepaliveRes := true, setNodelayRes := true,
    connectRes := some Errno.EINPROGRESS }

/-- An `open` oracle where socket creation itself fails. -/
def socketFailOracle : OpenOracle :=
  { socketRes := Except.error (Errno.other 24), setBlockingRes := none,
    setReuseRes := true, setKeepaliveRes := true, setNodelayRes := true,
    connectRes := none }

/-- An `open` oracle where putting the socket in non-blocking mode fails. -/
def blockingFailOracle : OpenOracle :=
  { socketRes := Except.ok 3, setBlockingRes := some Errno.EINVAL,
    setReuseRes := true, setKeepaliveRes := true, setNodelayRes := true,
    connectRes := none }

/-- An `open` oracle where the synchronous connect fails with a code other
than `EINPROGRESS`. -/
def connectFailOracle : OpenOracle :=
  { socketRes := Except.ok 3, setBlockingRes := none,
    setReuseRes := true, setKeepaliveRes := true, setNodelayRes := true,
    connectRes := some Errno.ENETUNREACH }

/-- A completion-backend state holding exactly one pending error with the
Error poll flag latched. -/
def oneErrState : CompState :=
  { adoptInit with pending_errors := [⟨104⟩], flagError := true }

/-- The connect-failure oracle with all three discarded `setsockopt`
results flipped to failure. -/
def connectFailOracleOptsFail : OpenOracle :=
  { connectFailOracle with
    setReuseRes := false, setKeepaliveRes := false, setNodelayRes := false }

/-- A completion-backend state with bytes staged on both sides of the
inbound buffer and a healthy socket. -/
def stagedReadState : CompState :=
  { adoptInit with is_connected := true, is_read_active := false,
                   input_reader := [10, 11], input_writer_tail := [12],
                   flagRead := true }

/-- A connected completion-backend state with one read outstanding and a
parked write loop (as after the connect completion is processed on an
adopted socket). -/
def connectedIdle : CompState :=
  { adoptInit with is_connected := true, is_write_waiting := true }

/-- The state after delivering a 0-byte read completion to
`connectedIdle`: the delivery consumed the outstanding read's reference
and `on_read` latched the Close poll flag. -/
def eofAfter : CompState :=
  { connectedIdle with refcnt := 1, outstanding := 0, is_read_active := false,
                       flagClose := true }

/-- Events run after the 0-byte read: the owner writes a byte, the
synthetic wake-up is delivered, and the send completion is delivered. -/
def eofTrace : List CompEvent :=
  [ CompEvent.callWrite [1],
    CompEvent.iocp (Except.ok []) Ovl.nullO none none,
    CompEvent.iocp (Except.ok [9]) Ovl.writeO none none ]

/-- A full life of an adopted socket: connect completion, a write with its
wake-up and send completion, a read delivering one byte, close, the close
completion, and the final read completion whose decrement deletes the
object. -/
def lifecycleTrace : List CompEvent :=
  [ CompEvent.iocp (Except.ok []) Ovl.readO none none,
    CompEvent.callWrite [5],
    CompEvent.iocp (Except.ok []) Ovl.nullO none none,
    CompEvent.iocp (Except.ok [7]) Ovl.readO none none,
    CompEvent.iocp (Except.ok [9]) Ovl.writeO none none,
    CompEvent.callClose,
    CompEvent.iocp (Except.ok []) Ovl.closeO none none,
    CompEvent.iocp (Except.ok [3]) Ovl.readO none none ]

/-- The deleted final state `lifecycleTrace` reaches from `adoptInit`. -/
def lifecycleFinal : CompState :=
  { refcnt := 0, deleted := true, close_flag := true, is_connected := true,
    is_read_active := true, is_write_active := false, is_write_waiting := true,
    input_reader := [], input_writer_tail := [7], output_reader := [],
    output_writer_tail := [], pending_errors := [], flagRead := true,
    flagWrite := true, flagClose := false, flagError := false,
    owner_held := false, outstanding := 0 }

/-- The actions `lifecycleTrace` emits. -/
def lifecycleActions : List CompAction :=
  [ CompAction.submitRead, CompAction.postWakeup, CompAction.submitWrite,
    CompAction.submitRead, CompAction.postClose ]

end TdSocket

namespace TdSocket

/-! ## Machine lemmas -/

theorem some_pair_inj {α β : Type} {x x1 : α} {y y1 : β}
    (h : (some (x, y) : Option (α × β)) = some (x1, y1)) : x = x1 ∧ y = y1 := by
  injection h with h2
  injection h2 with ha hb
  exact ⟨ha, hb⟩

theorem ownerBit_bounds (s : CompState) : 0 ≤ ownerBit s ∧ ownerBit s ≤ 1 := by
  unfold ownerBit
  split <;> simp

theorem ownerBit_congr {s t : CompState} (h : t.owner_held = s.owner_held) :
    ownerBit t = ownerBit s := by
  unfold ownerBit
  rw [h]

theorem owner_held_false_of_ownerBit_zero {s : CompState} (h : ownerBit s = 0) :
    s.owner_held = false := by
  unfold ownerBit at h
  cases hw : s.owner_held
  · rfl
  · rw [hw] at h
    simp at h

/-- Invariant preservation when the accounting fields are untouched. -/
theorem comp_inv_keep {s t : CompState} (h : CompInv s)
    (h1 : t.refcnt = s.refcnt) (h2 : t.outstanding = s.outstanding)
    (h3 : t.deleted = s.deleted) (h4 : t.owner_held = s.owner_held)
    (h5 : t.flagClose = true → t.is_connected = true ∧ t.is_read_active = false) :
    CompInv t := by
  obtain ⟨ha, hb, _⟩ := h
  refine ⟨?_, ?_, h5⟩
  · intro hdf
    rw [h3] at hdf
    obtain ⟨haa, hab⟩ := ha hdf
    rw [h1, h2, ownerBit_congr h4]
    exact ⟨haa, hab⟩
  · intro hdt
    rw [h3] at hdt
    obtain ⟨x, y, z⟩ := hb hdt
    rw [h1, h2, h4]
    exact ⟨x, y, z⟩

/-- Invariant preservation for an accepted submission: the refcount and
the outstanding-completion count both grow by one. -/
theorem comp_inv_bump {s t : CompState} (h : CompInv s) (hd : s.deleted = false)
    (h1 : t.refcnt = s.refcnt + 1) (h2 : t.outstanding = s.outstanding + 1)
    (h3 : t.deleted = false) (h4 : t.owner_held = s.owner_held)
    (h5 : t.flagClose = true → t.is_connected = true ∧ t.is_read_active = false) :
    CompInv t := by
  obtain ⟨ha, _, _⟩ := h
  obtain ⟨haa, hab⟩ := ha hd
  refine ⟨?_, ?_, h5⟩
  · intro _
    rw [h1, h2, ownerBit_congr h4]
    constructor
    · push_cast
      omega
    · omega
  · intro hdt
    rw [h3] at hdt
    cases hdt

/-- Invariant preservation for a completion delivery that does not delete:
refcount and outstanding count both drop by one and the result stays
positive. -/
theorem comp_inv_dec {s t : CompState} (h : CompInv s) (hd : s.deleted = false)
    (_hout : s.outstanding ≠ 0)
    (h1 : t.refcnt = s.refcnt - 1) (h2 : t.outstanding = s.outstanding - 1)
    (h3 : t.deleted = false) (h4 : t.owner_held = s.owner_held)
    (h5 : t.flagClose = true → t.is_connected = true ∧ t.is_read_active = false)
    (hnz : t.refcnt ≠ 0) :
    CompInv t := by
  obtain ⟨ha, _, _⟩ := h
  obtain ⟨haa, hab⟩ := ha hd
  have hbounds := ownerBit_bounds s
  refine ⟨?_, ?_, h5⟩
  · intro _
    rw [h1, h2, ownerBit_congr h4]
    rw [h1] at hnz
    constructor
    · omega
    · omega
  · intro hdt
    rw [h3] at hdt
    cases hdt

/-- Invariant preservation for the delivery whose decrement reaches zero:
the object is deleted with nothing outstanding and no owner reference. -/
theorem comp_inv_delete {s t : CompState} (h : CompInv s) (hd : s.deleted = false)
    (_hout : s.outstanding ≠ 0) (hzero : s.refcnt - 1 = 0)
    (h1 : t.refcnt = s.refcnt - 1) (h2 : t.outstanding = s.outstanding - 1)
    (h3 : t.deleted = true) (h4 : t.owner_held = s.owner_held)
    (h5 : t.flagClose = true → t.is_connected = true ∧ t.is_read_active = false) :
    CompInv t := by
  obtain ⟨ha, _, _⟩ := h
  obtain ⟨haa, hab⟩ := ha hd
  have hbounds := ownerBit_bounds s
  have hob : ownerBit s = 0 := by
    omega
  have hof : s.owner_held = false := owner_held_false_of_ownerBit_zero hob
  refine ⟨?_, ?_, h5⟩
  · intro hdf
    rw [h3] at hdf
    cases hdf
  · intro _
    refine ⟨by rw [h1]; exact hzero, ?_, by rw [h4]; exact hof⟩
    rw [h2]
    omega

/-- Lemma: `loop_read` preserves the invariant when the Close poll flag is clear,
and keeps it clear. -/
theorem comp_inv_loop_read {s s1 : CompState} {a : List CompAction}
    {osR : Option SockError} (hl : loop_read osR s = some (s1, a))
    (hd : s.deleted = false) (hfc : s.flagClose = false)
    (h : CompInv s) :
    CompInv s1 ∧ s1.flagClose = false ∧ s1.deleted = false ∧
      s1.owner_held = s.owner_held := by
  unfold loop_read at hl
  split at hl
  · exact Option.noConfusion hl
  · split at hl
    · exact Option.noConfusion hl
    · split at hl
      · obtain ⟨hs, _⟩ := some_pair_inj hl
        subst hs
        exact ⟨h, hfc, hd, rfl⟩
      · split at hl
        · obtain ⟨hs, _⟩ := some_pair_inj hl
          subst hs
          refine ⟨comp_inv_bump h hd rfl rfl hd rfl ?_, hfc, hd, rfl⟩
          intro hcl
          rw [show (accept_read_submission s).flagClose = s.flagClose from rfl, hfc] at hcl
          cases hcl
        · obtain ⟨hs, _⟩ := some_pair_inj hl
          subst hs
          refine ⟨comp_inv_keep h rfl rfl rfl rfl ?_, hfc, hd, rfl⟩
          intro hcl
          rw [show (on_error _ s).flagClose = s.flagClose from rfl, hfc] at hcl
          cases hcl

/-- Lemma: `loop_write` preserves the invariant; it never submits a read and
leaves the Close poll flag, the connection state and the read-active flag
untouched. -/
theorem comp_inv_loop_write {s s1 : CompState} {a : List CompAction}
    {osW : Option SockError} (hl : loop_write osW s = some (s1, a))
    (hd : s.deleted = false) (h : CompInv s) :
    CompInv s1 ∧ s1.flagClose = s.flagClose ∧ s1.deleted = false ∧
      s1.owner_held = s.owner_held ∧ CompAction.submitRead ∉ a := by
  unfold loop_write sync_out at hl
  split at hl
  · exact Option.noConfusion hl
  · split at hl
    · exact Option.noConfusion hl
    · split at hl
      · obtain ⟨hs, ha⟩ := some_pair_inj hl
        subst hs
        subst ha
        refine ⟨comp_inv_keep h rfl rfl rfl rfl ?_, rfl, hd, rfl, by simp⟩
        intro hcl
        exact h.2.2 hcl
      · split at hl
        · obtain ⟨hs, ha⟩ := some_pair_inj hl
          subst hs
          subst ha
          refine ⟨comp_inv_bump h hd rfl rfl hd rfl ?_, rfl, hd, rfl, by simp⟩
          intro hcl
          exact h.2.2 hcl
        · obtain ⟨hs, ha⟩ := some_pair_inj hl
          subst hs
          subst ha
          refine ⟨comp_inv_keep h rfl rfl rfl rfl ?_, rfl, hd, rfl, by simp⟩
          intro hcl
          exact h.2.2 hcl

/-- Lemma: `on_connected` preserves the invariant. -/
theorem comp_inv_on_connected {s s1 : CompState} {a : List CompAction}
    {osR osW : Option SockError} (hstep : on_connected osR osW s = some (s1, a))
    (hd : s.deleted = false) (h : CompInv s) :
    CompInv s1 ∧ s1.deleted = false ∧ s1.owner_held = s.owner_held := by
  unfold on_connected at hstep
  split at hstep
  · exact Option.noConfusion hstep
  · rename_i hncon
    split at hstep
    · rename_i hra
      have hfc : s.flagClose = false := by
        cases hcl : s.flagClose
        · rfl
        · exact absurd (h.2.2 hcl).1 (by simp_all)
      have hmid : CompInv { s with is_connected := true, is_read_active := false } :=
        comp_inv_keep h rfl rfl rfl rfl (by intro _; exact ⟨rfl, rfl⟩)
      split at hstep
      · exact Option.noConfusion hstep
      · rename_i s2 a1 hlr
        split at hstep
        · exact Option.noConfusion hstep
        · rename_i s3 a2 hlw
          obtain ⟨hs, _⟩ := some_pair_inj hstep
          subst hs
          obtain ⟨hinv2, hfc2, hd2, how2⟩ := comp_inv_loop_read hlr hd hfc hmid
          obtain ⟨hinv3, _, hd3, how3, _⟩ := comp_inv_loop_write hlw hd2 hinv2
          exact ⟨hinv3, hd3, by rw [how3, how2]⟩
    · exact Option.noConfusion hstep

/-- Lemma: `on_read` preserves the invariant (given a connected socket, which the
dispatcher guarantees when routing to it). -/
theorem comp_inv_on_read {s s1 : CompState} {a : List CompAction}
    {data : List UInt8} {osR : Option SockError}
    (hstep : on_read data osR s = some (s1, a)) (hd : s.deleted = false)
    (hcon : s.is_connected = true) (h : CompInv s) :
    CompInv s1 ∧ s1.deleted = false ∧ s1.owner_held = s.owner_held := by
  unfold on_read at hstep
  split at hstep
  · rename_i hra
    have hfc : s.flagClose = false := by
      cases hcl : s.flagClose
      · rfl
      · exact absurd (h.2.2 hcl).2 (by simp_all)
    split at hstep
    · obtain ⟨hs, _⟩ := some_pair_inj hstep
      subst hs
      refine ⟨comp_inv_keep h rfl rfl rfl rfl ?_, hd, rfl⟩
      intro _
      exact ⟨hcon, rfl⟩
    · have hmid : CompInv
          { s with is_read_active := false,
                   input_writer_tail := s.input_writer_tail ++ data,
                   flagRead := true } :=
        comp_inv_keep h rfl rfl rfl rfl (by intro hcl; exact ⟨hcon, rfl⟩)
      obtain ⟨hinv2, _, hd2, how2⟩ := comp_inv_loop_read hstep hd hfc hmid
      exact ⟨hinv2, hd2, how2⟩
  · exact Option.noConfusion hstep

/-- Lemma: `on_write` preserves the invariant; it never submits a read and leaves
the Close poll flag untouched. -/
theorem comp_inv_on_write {s s1 : CompState} {a : List CompAction}
    {size : Nat} {osW : Option SockError}
    (hstep : on_write size osW s = some (s1, a)) (hd : s.deleted = false)
    (h : CompInv s) :
    CompInv s1 ∧ s1.flagClose = s.flagClose ∧ s1.deleted = false ∧
      s1.owner_held = s.owner_held ∧ CompAction.submitRead ∉ a := by
  unfold on_write at hstep
  split at hstep
  · split at hstep
    · obtain ⟨hs, ha⟩ := some_pair_inj hstep
      subst hs
      subst ha
      exact ⟨h, rfl, hd, rfl, by simp⟩
    · have hmid : CompInv { s with output_reader := s.output_reader.drop 0 } :=
        comp_inv_keep h rfl rfl rfl rfl (by intro hcl; exact h.2.2 hcl)
      obtain ⟨h1, h2, h3, h4, h5⟩ := comp_inv_loop_write hstep hd hmid
      exact ⟨h1, h2, h3, h4, h5⟩
  · split at hstep
    · have hmid : CompInv
          { s with is_write_active := false,
                   output_reader := s.output_reader.drop size } :=
        comp_inv_keep h rfl rfl rfl rfl (by intro hcl; exact h.2.2 hcl)
      obtain ⟨h1, h2, h3, h4, h5⟩ := comp_inv_loop_write hstep hd hmid
      exact ⟨h1, h2, h3, h4, h5⟩
    · exact Option.noConfusion hstep

/-- A successful `on_read` dispatch requires an outstanding read
(`CHECK(is_read_active_)`). -/
theorem on_read_some_active {s : CompState} {data : List UInt8}
    {osR : Option SockError} {x : CompState × List CompAction}
    (h : on_read data osR s = some x) : s.is_read_active = true := by
  unfold on_read at h
  split at h
  · assumption
  · exact Option.noConfusion h

/-- Invariant preservation for `close()`: the posted close completion
takes over the owner's reference, so the count is unchanged while the
outstanding count grows. -/
theorem comp_inv_close_post {s t : CompState} (h : CompInv s) (hd : s.deleted = false)
    (howner : s.owner_held = true)
    (h1 : t.refcnt = s.refcnt) (h2 : t.outstanding = s.outstanding + 1)
    (h3 : t.deleted = false) (h4 : t.owner_held = false)
    (h5 : t.flagClose = true → t.is_connected = true ∧ t.is_read_active = false) :
    CompInv t := by
  obtain ⟨ha, _, _⟩ := h
  obtain ⟨haa, hab⟩ := ha hd
  have h0 : ownerBit s = 1 := by
    unfold ownerBit
    rw [howner]
    rfl
  have ht0 : ownerBit t = 0 := by
    unfold ownerBit
    rw [h4]
    rfl
  refine ⟨?_, ?_, h5⟩
  · intro _
    rw [h1, h2, ht0]
    rw [h0] at haa
    refine ⟨?_, hab⟩
    push_cast
    omega
  · intro hdt
    rw [h3] at hdt
    cases hdt

/-- Lemma: `on_iocp` preserves the invariant; and once the Close poll flag is
set, it stays set and no read submission is performed. -/
theorem comp_inv_on_iocp {s s1 : CompState} {a : List CompAction}
    {r : Except SockError (List UInt8)} {o : Ovl} {osR osW : Option SockError}
    (hstep : on_iocp r o osR osW s = some (s1, a)) (hd : s.deleted = false)
    (h : CompInv s) :
    CompInv s1 ∧
      (s.flagClose = true → s1.flagClose = true ∧ CompAction.submitRead ∉ a) := by
  unfold on_iocp at hstep
  split at hstep
  · exact Option.noConfusion hstep
  · rename_i hout
    split at hstep
    · rename_i hzero
      obtain ⟨hs, ha⟩ := some_pair_inj hstep
      subst hs
      subst ha
      refine ⟨comp_inv_delete h hd hout hzero rfl rfl rfl rfl ?_, ?_⟩
      · intro hcl
        exact h.2.2 hcl
      · intro hcl
        exact ⟨hcl, by simp⟩
    · rename_i hnz
      have hdec : CompInv (dec_refcnt s) :=
        comp_inv_dec h hd hout rfl rfl hd rfl (fun hcl => h.2.2 hcl) hnz
      split at hstep
      · obtain ⟨hs, ha⟩ := some_pair_inj hstep
        subst hs
        subst ha
        exact ⟨hdec, fun hcl => ⟨hcl, by simp⟩⟩
      · split at hstep
        · obtain ⟨hs, ha⟩ := some_pair_inj hstep
          subst hs
          subst ha
          refine ⟨comp_inv_keep hdec rfl rfl rfl rfl ?_, fun hcl => ⟨hcl, by simp⟩⟩
          intro hcl
          exact hdec.2.2 hcl
        · rename_i data
          split at hstep
          · rename_i hcond
            obtain ⟨hinv1, hd1, _⟩ := comp_inv_on_connected hstep hd hdec
            refine ⟨hinv1, ?_⟩
            intro hcl
            exfalso
            have hc2 : s.is_connected = true := (h.2.2 hcl).1
            simp [dec_refcnt, hc2] at hcond
          · rename_i hcond
            split at hstep
            · obtain ⟨h1, h2, h3, h4, h5⟩ := comp_inv_on_write hstep hd hdec
              refine ⟨h1, ?_⟩
              intro hcl
              refine ⟨?_, h5⟩
              rw [h2]
              exact hcl
            · split at hstep
              · obtain ⟨h1, h2, h3, h4, h5⟩ := comp_inv_on_write hstep hd hdec
                refine ⟨h1, ?_⟩
                intro hcl
                refine ⟨?_, h5⟩
                rw [h2]
                exact hcl
              · exact Option.noConfusion hstep
            · have hcon2 : (dec_refcnt s).is_connected = true := by
                simp at hcond
                exact hcond
              obtain ⟨h1, h2, h3⟩ := comp_inv_on_read hstep hd hcon2 hdec
              refine ⟨h1, ?_⟩
              intro hcl
              exfalso
              have hra := on_read_some_active hstep
              have hnr : (dec_refcnt s).is_read_active = false := (h.2.2 hcl).2
              rw [hra] at hnr
              cases hnr
            · obtain ⟨hs, ha⟩ := some_pair_inj hstep
              subst hs
              subst ha
              refine ⟨comp_inv_keep hdec rfl rfl rfl rfl ?_, fun hcl => ⟨hcl, by simp⟩⟩
              intro hcl
              exact hdec.2.2 hcl

/-- Frame: `get_pending_error` only touches the pending-error queue and the
Error poll flag. -/
theorem comp_get_pending_error_frame (s : CompState) :
    (comp_get_pending_error s).2.refcnt = s.refcnt ∧
    (comp_get_pending_error s).2.outstanding = s.outstanding ∧
    (comp_get_pending_error s).2.deleted = s.deleted ∧
    (comp_get_pending_error s).2.owner_held = s.owner_held ∧
    (comp_get_pending_error s).2.flagClose = s.flagClose ∧
    (comp_get_pending_error s).2.is_connected = s.is_connected ∧
    (comp_get_pending_error s).2.is_read_active = s.is_read_active := by
  unfold comp_get_pending_error
  split <;> simp

/-- The copy phase of `read` only touches the inbound buffers and the
Read poll flag. -/
theorem comp_read_copy_frame (n : Nat) (s : CompState) :
    (comp_read_copy n s).2.refcnt = s.refcnt ∧
    (comp_read_copy n s).2.outstanding = s.outstanding ∧
    (comp_read_copy n s).2.deleted = s.deleted ∧
    (comp_read_copy n s).2.owner_held = s.owner_held ∧
    (comp_read_copy n s).2.flagClose = s.flagClose ∧
    (comp_read_copy n s).2.is_connected = s.is_connected ∧
    (comp_read_copy n s).2.is_read_active = s.is_read_active := by
  unfold comp_read_copy sync_in
  split <;> simp

/-- Frame: `read` only touches the inbound buffers, the pending-error queue and
the Read/Error poll flags. -/
theorem comp_read_frame (n : Nat) (s : CompState) :
    (comp_read n s).2.refcnt = s.refcnt ∧
    (comp_read n s).2.outstanding = s.outstanding ∧
    (comp_read n s).2.deleted = s.deleted ∧
    (comp_read n s).2.owner_held = s.owner_held ∧
    (comp_read n s).2.flagClose = s.flagClose ∧
    (comp_read n s).2.is_connected = s.is_connected ∧
    (comp_read n s).2.is_read_active = s.is_read_active := by
  unfold comp_read
  split
  · split
    · rename_i e s2 heq
      have hf := comp_get_pending_error_frame s
      rw [heq] at hf
      simpa using hf
    · rename_i s2 heq
      have hf := comp_get_pending_error_frame s
      rw [heq] at hf
      simp at hf
      obtain ⟨b1, b2, b3, b4, b5, b6, b7⟩ := hf
      obtain ⟨a1, a2, a3, a4, a5, a6, a7⟩ := comp_read_copy_frame n s2
      exact ⟨a1.trans b1, a2.trans b2, a3.trans b3, a4.trans b4,
             a5.trans b5, a6.trans b6, a7.trans b7⟩
  · exact comp_read_copy_frame n s

/-- One step of the completion backend preserves the invariant; and once
the Close poll flag is set, it stays set and no read is submitted. -/
theorem comp_step_inv_full {s s1 : CompState} {e : CompEvent} {a : List CompAction}
    (hstep : comp_step s e = some (s1, a)) (h : CompInv s) :
    CompInv s1 ∧
      (s.flagClose = true → s1.flagClose = true ∧ CompAction.submitRead ∉ a) := by
  unfold comp_step at hstep
  split at hstep
  · exact Option.noConfusion hstep
  · rename_i hdel
    have hd : s.deleted = false := by simpa using hdel
    split at hstep
    · exact comp_inv_on_iocp hstep hd h
    · split at hstep
      · unfold comp_write at hstep
        split at hstep
        · obtain ⟨hs, ha⟩ := some_pair_inj hstep
          subst hs
          subst ha
          refine ⟨comp_inv_bump h hd rfl rfl hd rfl ?_, fun hcl => ⟨hcl, by simp⟩⟩
          intro hcl
          exact h.2.2 hcl
        · obtain ⟨hs, ha⟩ := some_pair_inj hstep
          subst hs
          subst ha
          refine ⟨comp_inv_keep h rfl rfl rfl rfl ?_, fun hcl => ⟨hcl, by simp⟩⟩
          intro hcl
          exact h.2.2 hcl
      · exact Option.noConfusion hstep
    · rename_i n
      split at hstep
      · obtain ⟨hs, ha⟩ := some_pair_inj hstep
        subst hs
        subst ha
        obtain ⟨b1, b2, b3, b4, b5, b6, b7⟩ := comp_read_frame n s
        refine ⟨comp_inv_keep h b1 b2 b3 b4 ?_, ?_⟩
        · intro hcl
          rw [b5] at hcl
          obtain ⟨x, y⟩ := h.2.2 hcl
          rw [b6, b7]
          exact ⟨x, y⟩
        · intro hcl
          rw [b5]
          exact ⟨hcl, by simp⟩
      · exact Option.noConfusion hstep
    · split at hstep
      · obtain ⟨hs, ha⟩ := some_pair_inj hstep
        subst hs
        subst ha
        obtain ⟨b1, b2, b3, b4, b5, b6, b7⟩ := comp_get_pending_error_frame s
        refine ⟨comp_inv_keep h b1 b2 b3 b4 ?_, ?_⟩
        · intro hcl
          rw [b5] at hcl
          obtain ⟨x, y⟩ := h.2.2 hcl
          rw [b6, b7]
          exact ⟨x, y⟩
        · intro hcl
          rw [b5]
          exact ⟨hcl, by simp⟩
      · exact Option.noConfusion hstep
    · split at hstep
      · rename_i howner
        obtain ⟨hs, ha⟩ := some_pair_inj hstep
        subst hs
        subst ha
        refine ⟨comp_inv_close_post h hd howner rfl rfl hd rfl ?_,
                fun hcl => ⟨hcl, by simp⟩⟩
        intro hcl
        exact h.2.2 hcl
      · exact Option.noConfusion hstep

/-- A run of the completion backend preserves the invariant; and from any
state with the Close poll flag set, the flag stays set for the whole run
and no read is ever submitted. -/
theorem comp_steps_inv_full {evs : List CompEvent} :
    ∀ {s s2 : CompState} {a2 : List CompAction},
      comp_steps s evs = some (s2, a2) → CompInv s →
      CompInv s2 ∧
        (s.flagClose = true → s2.flagClose = true ∧ CompAction.submitRead ∉ a2) := by
  induction evs with
  | nil =>
    intro s s2 a2 hrun h
    unfold comp_steps at hrun
    obtain ⟨hs, ha⟩ := some_pair_inj hrun
    subst hs
    subst ha
    exact ⟨h, fun hcl => ⟨hcl, by simp⟩⟩
  | cons e es ih =>
    intro s s2 a2 hrun h
    unfold comp_steps at hrun
    split at hrun
    · exact Option.noConfusion hrun
    · rename_i s1 a1 hstep
      split at hrun
      · exact Option.noConfusion hrun
      · rename_i s3 a3 hrun2
        obtain ⟨hs, ha⟩ := some_pair_inj hrun
        subst hs
        subst ha
        obtain ⟨hinv1, hcl1⟩ := comp_step_inv_full hstep h
        obtain ⟨hinv2, hcl2⟩ := ih hrun2 hinv1
        refine ⟨hinv2, ?_⟩
        intro hcl
        obtain ⟨hc1, hn1⟩ := hcl1 hcl
        obtain ⟨hc2, hn2⟩ := hcl2 hc1
        refine ⟨hc2, fun hmem => ?_⟩
        rcases List.mem_append.mp hmem with hm | hm
        · exact hn1 hm
        · exact hn2 hm

/-- Both constructors establish the invariant. -/
theorem comp_inv_init (s0 : CompState)
    (hinit : s0 = adoptInit ∨ ∃ i c, s0 = connectInit i c) : CompInv s0 := by
  rcases hinit with rfl | ⟨i, c, rfl⟩
  · decide
  · have hbase : CompInv connectBase := by decide
    cases i with
    | some e =>
      unfold connectInit
      refine comp_inv_keep hbase rfl rfl rfl rfl ?_
      intro hcl
      exact Bool.noConfusion hcl
    | none =>
      cases c with
      | pending => decide
      | immediateTrue => decide
      | fail e =>
        unfold connectInit
        refine comp_inv_keep hbase rfl rfl rfl rfl ?_
        intro hcl
        exact Bool.noConfusion hcl

/-! ## Claim theorems -/

/-- C5: for every byte sequence passed to the completion backend's
`write(bytes)`, the call appends the bytes to the outbound staging buffer,
never blocks (it is a total function of the state), and returns success
with the full byte count of the input within the same call, regardless of
the socket's current state. -/
theorem comp_write_full_count (s : CompState) (data : List UInt8) :
    (comp_write data s).1 = Except.ok data.length ∧
    (comp_write data s).2.1.output_writer_tail = s.output_writer_tail ++ data := by
  unfold comp_write
  split <;> simp

/-- C9: in the completion backend, `read(buffer)` with no latched error
synchronizes the inbound staging buffer, copies out exactly
`min(requested, available)` bytes (the first such bytes of the synced
buffer), returns them as success, clears the Readable flag exactly when
the returned count is 0, and leaves the Close flag untouched (a 0 return
does not by itself signal end-of-stream). -/
theorem comp_read_min_copy (s : CompState) (n : Nat) (h : s.flagError = false) :
    (comp_read n s).1 =
      Except.ok ((s.input_reader ++ s.input_writer_tail).take
        (min n (s.input_reader ++ s.input_writer_tail).length)) ∧
    (comp_read n s).2.input_reader =
      (s.input_reader ++ s.input_writer_tail).drop
        (min n (s.input_reader ++ s.input_writer_tail).length) ∧
    (comp_read n s).2.input_writer_tail = [] ∧
    (comp_read n s).2.flagRead =
      (if min n (s.input_reader ++ s.input_writer_tail).length = 0 then false
       else s.flagRead) ∧
    (comp_read n s).2.flagClose = s.flagClose := by
  unfold comp_read comp_read_copy sync_in
  rw [h]
  simp only [Bool.false_eq_true, if_false]
  generalize min n (s.input_reader ++ s.input_writer_tail).length = m
  cases m with
  | zero => simp
  | succ k => simp

/-- C9 witness: reading 2 bytes out of 3 staged (2 synced, 1 unsynced)
returns the first 2 bytes, leaves 1 byte, and keeps the Readable flag. -/
theorem comp_read_min_copy_witness :
    stagedReadState.flagError = false ∧
    (comp_read 2 stagedReadState).1 = Except.ok [10, 11] ∧
    (comp_read 2 stagedReadState).2.input_reader = [12] ∧
    (comp_read 2 stagedReadState).2.input_writer_tail = [] ∧
    (comp_read 2 stagedReadState).2.flagRead = true ∧
    (comp_read 2 stagedReadState).2.flagClose = false := by
  have h := comp_read_min_copy stagedReadState 2 (by decide)
  exact ⟨by decide, by simpa using h.1, by simpa using h.2.1,
         h.2.2.1, by simpa [stagedReadState, adoptInit] using h.2.2.2.1,
         by simpa [stagedReadState, adoptInit] using h.2.2.2.2⟩

/-- C10: in the completion backend, calling `read` with a zero-length
buffer on a socket with no latched error always returns success with 0
bytes and clears the Readable poll flag, even when bytes are staged in the
inbound buffer. -/
theorem comp_read_zero_buffer (s : CompState) (h : s.flagError = false) :
    (comp_read 0 s).1 = Except.ok [] ∧
    (comp_read 0 s).2.flagRead = false := by
  unfold comp_read comp_read_copy sync_in
  rw [h]
  simp only [Bool.false_eq_true, if_false]
  simp

/-- C10 witness: a zero-length read on a healthy socket with bytes staged
returns 0 bytes and clears Readable. -/
theorem comp_read_zero_buffer_witness :
    stagedReadState.flagError = false ∧
    stagedReadState.input_reader ≠ [] ∧
    (comp_read 0 stagedReadState).1 = Except.ok [] ∧
    (comp_read 0 stagedReadState).2.flagRead = false := by
  have h := comp_read_zero_buffer stagedReadState (by decide)
  exact ⟨by decide, by decide, h.1, h.2⟩

/-- C4 counterexample: with exactly one pending error and the Error flag
latched, `get_pending_error` pops the error — the queue becomes empty —
but the Error poll flag is NOT cleared, contradicting the claim that the
flag is cleared when the queue becomes empty (the source clears it only
when the popped status is OK, i.e. when the queue was already empty). -/
theorem comp_pending_error_flag_not_cleared_on_last_pop :
    (comp_get_pending_error oneErrState).1 = some ⟨104⟩ ∧
    (comp_get_pending_error oneErrState).2.pending_errors = [] ∧
    (comp_get_pending_error oneErrState).2.flagError = true := by
  decide

/-- C4 amended: on the completion backend, `get_pending_error`, holding
the lock, pops one error off the pending-error queue if one is present and
returns it (OK when the queue was empty); it clears the PollState Error
flag exactly when it returns OK, i.e. when the queue was already empty at
entry — popping the last error leaves the flag set. -/
theorem comp_get_pending_error_behavior (s : CompState) :
    (s.pending_errors = [] →
      comp_get_pending_error s = (none, { s with flagError := false })) ∧
    (∀ e rest, s.pending_errors = e :: rest →
      comp_get_pending_error s = (some e, { s with pending_errors := rest })) := by
  constructor
  · intro h
    unfold comp_get_pending_error
    rw [h]
  · intro e rest h
    unfold comp_get_pending_error
    rw [h]

/-- C4 witness: both branches of the amended behavior at concrete states:
an empty queue returns OK and clears the flag; a one-element queue returns
the error, empties the queue, and leaves the flag set. -/
theorem comp_get_pending_error_behavior_witness :
    oneErrState.pending_errors = [⟨104⟩] ∧
    comp_get_pending_error oneErrState =
      (some ⟨104⟩, { oneErrState with pending_errors := [] }) ∧
    adoptInit.pending_errors = [] ∧
    comp_get_pending_error adoptInit = (none, { adoptInit with flagError := false }) := by
  refine ⟨by decide, ?_, by decide, ?_⟩
  · exact (comp_get_pending_error_behavior oneErrState).2 ⟨104⟩ [] (by decide)
  · exact (comp_get_pending_error_behavior adoptInit).1 (by decide)

/-- C6: on the readiness backend, a failing write is classified by errno:
the two would-block codes clear the Writable flag and return 0 as success;
the fatal whitelist (which contains the bad-descriptor, bad-buffer and
invalid-argument codes) terminates the process; every other code clears
Writable, sets Closed, and returns the OS error as a recoverable failure. -/
theorem readiness_write_classification (s : RState) (e : Errno) :
    (is_would_block e = true →
      posixWrite s (Except.error e) = (IoResult.ok 0, { s with flagWrite := false })) ∧
    (Errno.EBADF ∈ posixWriteFatalErrnos ∧ Errno.EFAULT ∈ posixWriteFatalErrnos ∧
      Errno.EINVAL ∈ posixWriteFatalErrnos) ∧
    (e ∈ posixWriteFatalErrnos →
      posixWrite s (Except.error e) = (IoResult.fatal, s)) ∧
    (is_would_block e = false → e ∉ posixWriteFatalErrnos →
      posixWrite s (Except.error e) =
        (IoResult.err e, { s with flagWrite := false, flagClose := true })) := by
  refine ⟨?_, ⟨by decide, by decide, by decide⟩, ?_, ?_⟩
  · intro h
    simp [posixWrite, h]
  · intro h
    simp only [posixWriteFatalErrnos, List.mem_cons, List.not_mem_nil, or_false] at h
    rcases h with rfl | rfl | rfl | rfl <;> simp [posixWrite, is_would_block, posixWriteFatalErrnos]
  · intro h1 h2
    simp [posixWrite, h1, h2]

/-- C6 witness: the three classes at concrete errnos: `EAGAIN` yields a
0-byte success clearing Writable, `EBADF` is fatal, `ECONNRESET` is a
recoverable error that clears Writable and sets Closed. -/
theorem readiness_write_classification_witness :
    is_would_block Errno.EAGAIN = true ∧
    posixWrite initRState (Except.error Errno.EAGAIN) =
      (IoResult.ok 0, { initRState with flagWrite := false }) ∧
    Errno.EBADF ∈ posixWriteFatalErrnos ∧
    posixWrite initRState (Except.error Errno.EBADF) = (IoResult.fatal, initRState) ∧
    posixWrite initRState (Except.error Errno.ECONNRESET) =
      (IoResult.err Errno.ECONNRESET,
       { initRState with flagWrite := false, flagClose := true }) := by
  refine ⟨by decide, ?_, by decide, ?_, ?_⟩
  · exact (readiness_write_classification initRState Errno.EAGAIN).1 (by decide)
  · exact (readiness_write_classification initRState Errno.EBADF).2.2.1 (by decide)
  · exact (readiness_write_classification initRState Errno.ECONNRESET).2.2.2
      (by decide) (by decide)

/-- C7: on the readiness backend, `read(buffer)` on a non-empty buffer
whose OS read returns 0 bytes clears Readable, sets Closed and returns
success with 0; an OS read failing with a would-block code clears Readable
and returns 0 as success; and if PollState carries a latched error (with
an OS-level error pending), that error is surfaced and the OS read is not
attempted. -/
theorem readiness_read_behavior (s : RState) (n : Nat) (os : Except Errno Nat)
    (e e2 : Errno) (hn : 0 < n) :
    (s.flagError = false →
      posixRead s n (Except.ok 0) =
        (IoResult.ok 0, { s with flagRead := false, flagClose := true }, true)) ∧
    (s.flagError = false → is_would_block e = true →
      posixRead s n (Except.error e) =
        (IoResult.ok 0, { s with flagRead := false }, true)) ∧
    (s.flagError = true → s.osSoError = some e2 →
      posixRead s n os = (IoResult.err e2, { s with osSoError := none }, false)) := by
  have hn0 : n ≠ 0 := Nat.pos_iff_ne_zero.mp hn
  refine ⟨?_, ?_, ?_⟩
  · intro h
    simp [posixRead, h, hn0]
  · intro h hw
    simp [posixRead, h, hn0, hw]
  · intro h he
    simp [posixRead, posixGetPendingError, get_socket_pending_error, h, he]

/-- C7 witness: the three behaviors at concrete inputs: end-of-stream,
would-block, and a latched connection-reset error short-circuiting the
read. -/
theorem readiness_read_behavior_witness :
    (0 < 4) ∧
    posixRead initRState 4 (Except.ok 0) =
      (IoResult.ok 0, { initRState with flagRead := false, flagClose := true }, true) ∧
    is_would_block Errno.EWOULDBLOCK = true ∧
    posixRead initRState 4 (Except.error Errno.EWOULDBLOCK) =
      (IoResult.ok 0, { initRState with flagRead := false }, true) ∧
    errLatchedRState.flagError = true ∧
    posixRead errLatchedRState 4 (Except.ok 2) =
      (IoResult.err Errno.ECONNRESET, { errLatchedRState with osSoError := none }, false) := by
  refine ⟨by decide, ?_, by decide, ?_, by decide, ?_⟩
  · exact (readiness_read_behavior initRState 4 (Except.ok 0) Errno.EAGAIN
      Errno.EAGAIN (by decide)).1 (by decide)
  · exact (readiness_read_behavior initRState 4 (Except.ok 0) Errno.EWOULDBLOCK
      Errno.EAGAIN (by decide)).2.1 (by decide) (by decide)
  · exact (readiness_read_behavior errLatchedRState 4 (Except.ok 2) Errno.EAGAIN
      Errno.ECONNRESET (by decide)).2.2 (by decide) (by decide)

/-- C3 counterexample: on the readiness backend with the Error flag
latched and the OS reporting a connection reset, `get_pending_error`
returns the error but does NOT clear the latched flag (the source's
`TRY_STATUS` returns before `clear_flags(Error)` runs), contradicting the
claim that the latched flag is cleared when the error is returned. -/
theorem readiness_pending_error_flag_not_cleared :
    (posixGetPendingError errLatchedRState).1 = some Errno.ECONNRESET ∧
    (posixGetPendingError errLatchedRState).2.1.flagError = true := by
  decide

/-- C3 amended: on the readiness backend, `get_pending_error` returns OK
without touching the OS when no Error flag is latched; when the flag is
latched it queries the OS-level socket error state once (draining it) and
returns that error, clearing the latched flag only when the OS reports no
error; after a non-OK return the flag stays latched, but because the OS
error state was drained, a second immediate call (with no new error pushed
meanwhile) returns OK and clears the flag. -/
theorem readiness_get_pending_error_behavior (s : RState) (e : Errno) :
    (s.flagError = false → posixGetPendingError s = (none, s, 0)) ∧
    (s.flagError = true → s.osSoError = some e →
      posixGetPendingError s = (some e, { s with osSoError := none }, 1)) ∧
    (s.flagError = true → s.osSoError = none →
      posixGetPendingError s = (none, { s with osSoError := none, flagError := false }, 1)) ∧
    (s.flagError = true → s.osSoError = some e →
      (posixGetPendingError (posixGetPendingError s).2.1).1 = none ∧
      (posixGetPendingError (posixGetPendingError s).2.1).2.1.flagError = false) := by
  refine ⟨?_, ?_, ?_, ?_⟩
  · intro h
    simp [posixGetPendingError, h]
  · intro h he
    simp [posixGetPendingError, get_socket_pending_error, h, he]
  · intro h he
    simp [posixGetPendingError, get_socket_pending_error, h, he]
  · intro h he
    simp [posixGetPendingError, get_socket_pending_error, h, he]

/-- C3 witness: the no-op case, the latched-error case, and the immediate
second call returning OK, at concrete states. -/
theorem readiness_get_pending_error_behavior_witness :
    initRState.flagError = false ∧
    posixGetPendingError initRState = (none, initRState, 0) ∧
    errLatchedRState.flagError = true ∧
    errLatchedRState.osSoError = some Errno.ECONNRESET ∧
    posixGetPendingError errLatchedRState =
      (some Errno.ECONNRESET, { errLatchedRState with osSoError := none }, 1) ∧
    (posixGetPendingError (posixGetPendingError errLatchedRState).2.1).1 = none := by
  refine ⟨by decide, ?_, by decide, by decide, ?_, ?_⟩
  · exact (readiness_get_pending_error_behavior initRState Errno.EAGAIN).1 (by decide)
  · exact (readiness_get_pending_error_behavior errLatchedRState Errno.ECONNRESET).2.1
      (by decide) (by decide)
  · exact ((readiness_get_pending_error_behavior errLatchedRState Errno.ECONNRESET).2.2.2
      (by decide) (by decide)).1

/-- C2 counterexample: with every OS call succeeding except the
`SO_REUSEADDR` `setsockopt` (whose return value the source discards),
`open` still returns a socket handle, contradicting the claim that a
failure to apply the address-reuse option yields a failed result. -/
theorem open_ignores_setsockopt_failure :
    reuseFailOracle.setReuseRes = false ∧
    socketFdOpen reuseFailOracle = Except.ok initRState := by
  decide

/-- C2 amended: `open(address)` returns a failed result carrying the OS
error whenever socket creation fails, whenever putting the socket in
non-blocking mode fails, or whenever the synchronous connect fails with
anything other than `EINPROGRESS`; in each case no handle is returned.
The outcomes of the reuse/keep-alive/no-delay `setsockopt` calls are
discarded and never affect the result. -/
theorem open_failure_behavior (o : OpenOracle) :
    (∀ e, o.socketRes = Except.error e → socketFdOpen o = Except.error e) ∧
    (∀ fd e, o.socketRes = Except.ok fd → o.setBlockingRes = some e →
      socketFdOpen o = Except.error e) ∧
    (∀ fd e, o.socketRes = Except.ok fd → o.setBlockingRes = none →
      o.connectRes = some e → e ≠ Errno.EINPROGRESS →
      socketFdOpen o = Except.error e) ∧
    (∀ b1 b2 b3,
      socketFdOpen
        { o with setReuseRes := b1, setKeepaliveRes := b2, setNodelayRes := b3 } =
        socketFdOpen o) ∧
    (∀ fd, o.socketRes = Except.ok fd → o.setBlockingRes = none →
      (o.connectRes = none ∨ o.connectRes = some Errno.EINPROGRESS) →
      socketFdOpen o = Except.ok initRState) := by
  refine ⟨?_, ?_, ?_, ?_, ?_⟩
  · intro e h
    simp [socketFdOpen, h]
  · intro fd e h hb
    simp [socketFdOpen, init_socket_options, h, hb]
  · intro fd e h hb hc hne
    simp [socketFdOpen, init_socket_options, h, hb, hc, hne]
  · intro b1 b2 b3
    simp [socketFdOpen, init_socket_options]
  · intro fd h hb hc
    rcases hc with hc | hc <;> simp [socketFdOpen, init_socket_options, h, hb, hc]

/-- C2 witness: the three failure paths and the option-ignoring path at
concrete oracles. -/
theorem open_failure_behavior_witness :
    socketFailOracle.socketRes = Except.error (Errno.other 24) ∧
    socketFdOpen socketFailOracle = Except.error (Errno.other 24) ∧
    blockingFailOracle.setBlockingRes = some Errno.EINVAL ∧
    socketFdOpen blockingFailOracle = Except.error Errno.EINVAL ∧
    connectFailOracle.connectRes = some Errno.ENETUNREACH ∧
    socketFdOpen connectFailOracle = Except.error Errno.ENETUNREACH ∧
    socketFdOpen connectFailOracleOptsFail = socketFdOpen connectFailOracle := by
  refine ⟨by decide, ?_, by decide, ?_, by decide, ?_, ?_⟩
  · exact (open_failure_behavior socketFailOracle).1 (Errno.other 24) (by decide)
  · exact (open_failure_behavior blockingFailOracle).2.1 3 Errno.EINVAL
      (by decide) (by decide)
  · exact (open_failure_behavior connectFailOracle).2.2.1 3 Errno.ENETUNREACH
      (by decide) (by decide) (by decide) (by decide)
  · exact (open_failure_behavior connectFailOracle).2.2.2.1 false false false

/-- C1 counterexample: the synthetic close submission does NOT increment
the reference count before submission, contradicting the claim that every
accepted asynchronous submission does.  From the adopting-constructor
state (refcount 2), `close()` posts the close completion (the ghost
outstanding count grows to 2 and `postClose` is emitted) while the
refcount stays 2 — the owner's own reference is handed to the posted
completion instead. -/
theorem close_post_does_not_increment_refcnt :
    comp_step adoptInit CompEvent.callClose =
      some ({ adoptInit with owner_held := false, outstanding := 2 },
            [CompAction.postClose]) ∧
    adoptInit.refcnt = 2 ∧
    ({ adoptInit with owner_held := false, outstanding := 2 } : CompState).refcnt = 2 := by
  decide

/-- C1 amended: in the completion backend, every accepted asynchronous
submission except the synthetic close notification increments the
reference count (an accepted read/write submission and the synthetic
wake-up/connected posts each add one, as the machine's step functions
record); the close post instead consumes the owning handle's reference;
every delivery decrements the count once; and along every run from a
constructor state, the object is deleted exactly when the count reaches
zero — never before (alive states have positive count) and never twice (a
deleted state admits no further step). -/
theorem refcnt_deletion_lifecycle (s0 : CompState) (evs : List CompEvent)
    (s : CompState) (a : List CompAction)
    (hinit : s0 = adoptInit ∨ ∃ i c, s0 = connectInit i c)
    (hrun : comp_steps s0 evs = some (s, a)) :
    (s.deleted = true ↔ s.refcnt = 0) ∧
    (s.deleted = true → ∀ e2, comp_step s e2 = none) := by
  have h0 := comp_inv_init s0 hinit
  obtain ⟨hinv, _⟩ := comp_steps_inv_full hrun h0
  obtain ⟨h1, h2, _⟩ := hinv
  constructor
  · constructor
    · intro hdel
      exact (h2 hdel).1
    · intro hz
      cases hdel : s.deleted
      · obtain ⟨_, hpos⟩ := h1 hdel
        omega
      · rfl
  · intro hdel e2
    unfold comp_step
    rw [hdel]
    rfl

/-- C1 witness: a full concrete run from the adopting constructor through
connect, write, read, close and the final completion reaches the deleted
state with refcount exactly 0, and no further event is accepted. -/
theorem refcnt_deletion_lifecycle_witness :
    comp_steps adoptInit lifecycleTrace = some (lifecycleFinal, lifecycleActions) ∧
    lifecycleFinal.deleted = true ∧
    lifecycleFinal.refcnt = 0 ∧
    ((lifecycleFinal.deleted = true ↔ lifecycleFinal.refcnt = 0) ∧
     (lifecycleFinal.deleted = true → ∀ e2, comp_step lifecycleFinal e2 = none)) := by
  refine ⟨by decide, by decide, by decide, ?_⟩
  exact refcnt_deletion_lifecycle adoptInit lifecycleTrace lifecycleFinal
    lifecycleActions (Or.inl rfl) (by decide)

/-- C8: in the completion backend, once a read completion reports 0
transferred bytes, the Close poll flag is set, and along every further run
the flag stays set and no OS read submission is ever performed. -/
theorem no_read_submission_after_eof (s : CompState) (osR osW : Option SockError)
    (s1 s2 : CompState) (a1 a2 : List CompAction) (evs : List CompEvent)
    (hinv : CompInv s) (hcon : s.is_connected = true)
    (hra : s.is_read_active = true) (hcf : s.close_flag = false)
    (hrc : s.refcnt ≠ 1) (hout : s.outstanding ≠ 0)
    (hstep : comp_step s (CompEvent.iocp (Except.ok []) Ovl.readO osR osW) =
      some (s1, a1))
    (hrun : comp_steps s1 evs = some (s2, a2)) :
    s1.flagClose = true ∧ s2.flagClose = true ∧ CompAction.submitRead ∉ a2 := by
  have hd : s.deleted = false := by
    cases hdel : s.deleted
    · rfl
    · unfold comp_step at hstep
      rw [hdel] at hstep
      simp at hstep
  have h1 : ¬(s.refcnt - 1 = 0) := by omega
  have hkey : comp_step s (CompEvent.iocp (Except.ok []) Ovl.readO osR osW) =
      some ({ dec_refcnt s with is_read_active := false, flagClose := true }, []) := by
    unfold comp_step on_iocp on_read dec_refcnt
    simp [hd, hcf, hcon, hra, h1, hout]
  have hfc1 : s1.flagClose = true := by
    have h2 := hkey.symm.trans hstep
    obtain ⟨hs, _⟩ := some_pair_inj h2
    rw [← hs]
  obtain ⟨hinv1, _⟩ := comp_step_inv_full hstep hinv
  obtain ⟨_, hclpart⟩ := comp_steps_inv_full hrun hinv1
  obtain ⟨hc2, hn2⟩ := hclpart hfc1
  exact ⟨hfc1, hc2, hn2⟩

/-- C8 witness: from a connected state with one outstanding read, the
0-byte read completion sets the Close flag; a subsequent write with its
wake-up and send completion keeps the flag set and emits write-side
actions only, never a read submission. -/
theorem no_read_submission_after_eof_witness :
    CompInv connectedIdle ∧ connectedIdle.is_connected = true ∧
    connectedIdle.is_read_active = true ∧ connectedIdle.close_flag = false ∧
    connectedIdle.refcnt ≠ 1 ∧ connectedIdle.outstanding ≠ 0 ∧
    comp_step connectedIdle (CompEvent.iocp (Except.ok []) Ovl.readO none none) =
      some (eofAfter, []) ∧
    comp_steps eofAfter eofTrace =
      some (eofAfter, [CompAction.postWakeup, CompAction.submitWrite]) ∧
    (eofAfter.flagClose = true ∧ eofAfter.flagClose = true ∧
     CompAction.submitRead ∉ [CompAction.postWakeup, CompAction.submitWrite]) := by
  refine ⟨by decide, by decide, by decide, by decide, by decide, by decide,
          by decide, by decide, ?_⟩
  exact no_read_submission_after_eof connectedIdle none none eofAfter eofAfter []
    [CompAction.postWakeup, CompAction.submitWrite] eofTrace (by decide) (by decide)
    (by decide) (by decide) (by decide) (by decide) (by decide) (by decide)

end TdSocket
